import Mathlib

/-!
Shallow embedding of the advisor-consultation booking core
(bookingStore.js, mockAvailability.js, istDate.js, dialogStateMachine.js,
bookingCode.js, guardrails.js, and the conversation engine's
processMessage), together with proofs about the claims of the
specification.

Modelling conventions.

* All clock arithmetic is done in the fixed IST civil timezone, exactly as
  in istDate.js when the host clock is already in IST (the code's primary
  path): an instant is a number of minutes since the epoch 1970-01-01 IST,
  a civil date is a number of days since that epoch (so the `YYYY-MM-DD`
  strings of the source, produced by formatISTDate, correspond bijectively
  to day numbers), and 1970-01-01 is a Thursday, so the JS
  `Date.getDay()` of day `d` is `(d + 4) % 7`.
* Slot times are the fixed enumeration 10:00 / 14:00 / 16:00 of the
  source; `createISTDateTime date time` is `date * 1440 + hour * 60`.
* The `Map` of bookingStore.js keyed by booking code is modelled as a
  `List Booking` in insertion order; `Map.set` replaces the entry with the
  same code in place or appends (`setBooking`), `Map.get` is `getBooking`,
  `Map.values()` is the list itself.
* `normalizeDate` / `normalizeTime` of isSlotBooked are the identity on
  this structured model (dates are day numbers, times the three-valued
  enumeration), so they are not re-embedded.
* Display-only fields (`formatted`, topics) and the external side-effect
  calls (calendar, sheet, email) are omitted: they do not influence the
  registry or the session state transitions under study.
-/

set_option maxRecDepth 8000

/-- The three fixed daily appointment times of the source
(`['10:00', '14:00', '16:00']`). -/
inductive TimeSlot
  | t10
  | t14
  | t16
deriving DecidableEq, Repr

/-- Hour-of-day of a time slot (`parseInt(slot.time.split(':')[0])`). -/
def TimeSlot.hour : TimeSlot → Nat
  | .t10 => 10
  | .t14 => 14
  | .t16 => 16

/-- The ordered list of the three fixed time slots
(`const timeSlots = ['10:00', '14:00', '16:00']`). -/
def allTimeSlots : List TimeSlot := [.t10, .t14, .t16]

/-- Minutes in a civil day. -/
def minutesPerDay : Nat := 1440

/-- `getISTDayOfWeek` on a civil day number: 1970-01-01 is a Thursday,
so `Date.getDay()` of day `d` is `(d + 4) % 7` (0 = Sunday). -/
def dayOfWeek (d : Nat) : Nat := (d + 4) % 7

/-- `getISTToday()` as a day number, derived from the current instant
`now` (minutes since epoch): the whole-day part of `now`. -/
def dayOf (now : Nat) : Nat := now / minutesPerDay

/-- `createISTDateTime(dateStr, timeStr)`: the instant (minutes since
epoch IST) of a date at one of the fixed times. -/
def slotInstant (d : Nat) (t : TimeSlot) : Nat := d * minutesPerDay + t.hour * 60

/-- A Slot as produced by mockAvailability.js: `date` (day number for the
`YYYY-MM-DD` string), `time`, and `datetime` (the instant of
`createISTDateTime(date, time)`).  The display-only `formatted` field is
omitted. -/
structure Slot where
  date : Nat
  time : TimeSlot
  datetime : Nat
deriving DecidableEq, Repr

/-- Builds the slot object `{ date, time, datetime }` pushed by
getMockAvailableSlots. -/
def buildSlot (d : Nat) (t : TimeSlot) : Slot :=
  { date := d, time := t, datetime := slotInstant d t }

/-- Booking status: `createBooking` stores `'confirmed'`, `cancelBooking`
flips to `'cancelled'`; no other status value occurs in the source. -/
inductive BookingStatus
  | confirmed
  | cancelled
deriving DecidableEq, Repr

/-- A Booking record of bookingStore.js (fields relevant to the claims:
`code`, `selectedSlot`, `status`, `createdAt`, `cancelledAt`, and the
opaque external calendar reference `calendarEventId`, which gates the
reschedule commit in processMessage).  `calendarEventId` is the value
returned by the external calendar side-effect call (null when that call
failed or never ran); since those calls are outside the model, bookings
created here carry `none` and the field is otherwise carried as data. -/
structure Booking where
  code : String
  selectedSlot : Option Slot
  status : BookingStatus
  createdAt : Nat
  cancelledAt : Option Nat
  calendarEventId : Option String := none
deriving DecidableEq, Repr

/-- The `bookings` Map of bookingStore.js, in insertion order. -/
def Registry : Type := List Booking

/-- `Map.set(code, booking)`: replace the entry with the same code in
place, or append when absent. -/
def setBooking : List Booking → Booking → List Booking
  | [], b => [b]
  | x :: xs, b => if x.code = b.code then b :: xs else x :: setBooking xs b

/-- `getBooking(bookingCode)` (`bookings.get`). -/
def getBooking (r : List Booking) (code : String) : Option Booking :=
  r.find? (fun b => b.code = code)

/-- `createBooking(bookingCode, bookingData)`: stores a booking with
`status: 'confirmed'` and `createdAt: new Date()` under the code
(overwriting any existing entry with that code, as `Map.set` does). -/
def createBooking (r : List Booking) (code : String) (sel : Option Slot) (now : Nat) :
    List Booking :=
  setBooking r { code := code, selectedSlot := sel, status := .confirmed,
                 createdAt := now, cancelledAt := none }

/-- `cancelBooking(bookingCode)`: `null` when the code is absent,
otherwise sets `status = 'cancelled'` and `cancelledAt = new Date()` on
the stored booking and returns it. -/
def cancelBooking (r : List Booking) (code : String) (now : Nat) :
    Option Booking × List Booking :=
  match getBooking r code with
  | none => (none, r)
  | some b =>
      let b2 : Booking := { b with status := .cancelled, cancelledAt := some now }
      (some b2, setBooking r b2)

/-- `isSlotBooked(date, time, excludeBookingCode)`: true iff some
non-cancelled, non-excluded booking has a `selectedSlot` whose
(date, time) equals the query.  `normalizeDate`/`normalizeTime` are the
identity on this structured model. -/
def isSlotBooked (r : List Booking) (date : Nat) (time : TimeSlot)
    (excludeCode : Option String) : Bool :=
  r.any fun b =>
    if b.status = .cancelled ∨ excludeCode = some b.code then false
    else
      match b.selectedSlot with
      | none => false
      | some s => s.date = date ∧ s.time = time

/-- `getBookedSlots(excludeBookingCode)`: the (date, time) pairs of all
non-cancelled non-excluded bookings that carry a selected slot. -/
def getBookedSlots (r : List Booking) (excludeCode : Option String) :
    List (Nat × TimeSlot) :=
  r.filterMap fun b =>
    if b.status = .cancelled ∨ excludeCode = some b.code then none
    else
      match b.selectedSlot with
      | none => none
      | some s => some (s.date, s.time)

/-- `isDateFullyBooked(date, excludeBookingCode)`: all three fixed times
of the date occur among the booked slots. -/
def isDateFullyBooked (r : List Booking) (date : Nat) (excludeCode : Option String) :
    Bool :=
  let bookedTimesForDate :=
    (getBookedSlots r excludeCode).filterMap
      (fun p => if p.1 = date then some p.2 else none)
  allTimeSlots.all (fun t => bookedTimesForDate.contains t)

example : (cancelBooking [] "NL-AAAA" 0) = (none, []) := by decide

example :
    isSlotBooked
      [{ code := "NL-AAAA", selectedSlot := some (buildSlot 3 .t10),
         status := .confirmed, createdAt := 0, cancelledAt := none }]
      3 .t10 none = true := by decide

/-!
## Slot Availability Engine (mockAvailability.js)

`preferences.day` is a free-text string classified by a cascade of
`includes` checks, in source order: `'tomorrow'`, then `'today'`, then
`'sunday'`, then the weekday keywords `monday..saturday` (mapped to day
numbers 1..6).  `DayPref` records which branch of that cascade fires for
the given string (`unmatchedDay` when none does).  Likewise
`preferences.time` is classified by the fixed keyword table of the
source (`morning/afternoon/evening/'10'/'14'/'2'/'16'/'4'/'3 pm'/'3pm'/
'15'/'15:00'`), recorded by `TimePref` (`unmatchedTime` when no keyword
matches, in which case no time filter is applied).
-/

/-- Which branch of the `preferences.day` `includes`-cascade fires. -/
inductive DayPref
  | tomorrow
  | today
  | sundayName
  | weekdayName (w : Nat)
  | unmatchedDay
deriving DecidableEq, Repr

/-- Which entry of the time-keyword table matches `preferences.time`. -/
inductive TimePref
  | morning
  | afternoon
  | evening
  | k10
  | k14
  | k2
  | k16
  | k4
  | k3pmSpace
  | k3pm
  | k15
  | k1500
  | unmatchedTime
deriving DecidableEq, Repr

/-- The target times of a matched time keyword (the values of the
`timeKeywords` table); `[]` when no keyword matched. -/
def resolveTimeKeyword : TimePref → List TimeSlot
  | .morning => [.t10]
  | .afternoon => [.t14]
  | .evening => [.t16]
  | .k10 => [.t10]
  | .k14 => [.t14]
  | .k2 => [.t14]
  | .k16 => [.t16]
  | .k4 => [.t16]
  | .k3pmSpace => [.t14]
  | .k3pm => [.t14]
  | .k15 => [.t14]
  | .k1500 => [.t14]
  | .unmatchedTime => []

/-- The `preferences` object `{ day, time, specificHour }`. -/
structure Preferences where
  day : Option DayPref := none
  time : Option TimePref := none
  specificHour : Option Nat := none
deriving DecidableEq, Repr

/-- The `daysToAdd` computation of the source (`target - currentDay`,
`+ 7` when `<= 0`), used both for `daysToMonday` (target 1) and for the
weekday-keyword branch. -/
def daysUntilWeekday (cur target : Nat) : Nat :=
  (if (target : Int) - (cur : Int) ≤ 0 then (target : Int) - (cur : Int) + 7
   else (target : Int) - (cur : Int)).toNat

/-- The candidate-slot generation loop of getMockAvailableSlots
(lines 40-72): 8 consecutive days from today, skipping Sundays, the three
fixed times, dropping past instants and already-booked (date, time)
pairs. -/
def generateCandidateSlots (now : Nat) (booked : List (Nat × TimeSlot)) : List Slot :=
  (List.range 8).flatMap fun dayOffset =>
    let d := dayOf now + dayOffset
    if dayOfWeek d = 0 then []
    else
      allTimeSlots.filterMap fun t =>
        let dt := slotInstant d t
        if dt ≤ now then none
        else if booked.contains (d, t) then none
        else some (buildSlot d t)

/-- The closest of the three fixed hours to `specificHour` (the
`minDiff` loop of filterSlotsByPreferences; ties keep the earlier
value because the update uses strict `<`). -/
def closestSlotTo (h : Nat) : TimeSlot :=
  let d10 := ((h : Int) - 10).natAbs
  let d14 := ((h : Int) - 14).natAbs
  let d16 := ((h : Int) - 16).natAbs
  if d14 < d10 then
    if d16 < d14 then .t16 else .t14
  else
    if d16 < d10 then .t16 else .t10

/-- The result record of filterSlotsByPreferences.  Note: in the source
only the `'tomorrow'` and `'today'` branches assign the outer
`targetDate`; the `'sunday'` and weekday-name branches declare a
shadowing local `const targetDate`, so the returned `targetDate` stays
null there. -/
structure FilterResult where
  filtered : List Slot
  isSundayRequest : Bool
  targetDate : Option Nat
deriving Repr

/-- filterSlotsByPreferences (lines 320-482). -/
def filterSlotsByPreferences (slots : List Slot) (prefs : Preferences) (now : Nat) :
    FilterResult :=
  let today := dayOf now
  let dayStep : List Slot × Bool × Option Nat :=
    match prefs.day with
    | none => (slots, false, none)
    | some .tomorrow =>
        let tomorrow := today + 1
        if dayOfWeek tomorrow = 0 then
          -- tomorrow is Sunday: move to Monday, double-checking the day
          let m0 := tomorrow + 1
          let monday :=
            if ¬ dayOfWeek m0 = 1 then today + daysUntilWeekday (dayOfWeek today) 1
            else m0
          (slots.filter (fun s => s.date = monday), true, some monday)
        else
          (slots.filter (fun s => s.date = tomorrow), false, some tomorrow)
    | some .today =>
        if dayOfWeek today = 0 then
          let monday := today + daysUntilWeekday (dayOfWeek today) 1
          (slots.filter (fun s => s.date = monday), true, some monday)
        else
          (slots.filter (fun s => s.date = today), false, some today)
    | some .sundayName =>
        -- explicit Sunday request: filter to next Monday, but the outer
        -- targetDate is shadowed in the source and stays null
        let tgt := today + daysUntilWeekday (dayOfWeek today) 1
        (slots.filter (fun s => s.date = tgt), true, none)
    | some (.weekdayName w) =>
        -- weekday keyword: next future occurrence; targetDate likewise
        -- shadowed in the source, stays null
        let tgt := today + daysUntilWeekday (dayOfWeek today) w
        (slots.filter (fun s => s.date = tgt), false, none)
    | some .unmatchedDay => (slots, false, none)
  let filtered1 := dayStep.1
  let isSun := dayStep.2.1
  let targetDate := dayStep.2.2
  let targetTimes : List TimeSlot :=
    match prefs.time with
    | none => []
    | some tp =>
        match prefs.specificHour with
        | some h => [closestSlotTo h]
        | none => resolveTimeKeyword tp
  let filtered2 :=
    if targetTimes.isEmpty then filtered1
    else filtered1.filter (fun s => targetTimes.contains s.time)
  { filtered := if filtered2.isEmpty then slots else filtered2,
    isSundayRequest := isSun, targetDate := targetDate }

/-- Stable insertion into a list ordered by distance of the slot hour to
`h` (models the stable `Array.sort` by `diffA - diffB`). -/
def insertByHourDist (h : Nat) (s : Slot) : List Slot → List Slot
  | [] => [s]
  | x :: xs =>
      if ((s.time.hour : Int) - h).natAbs < ((x.time.hour : Int) - h).natAbs
      then s :: x :: xs
      else x :: insertByHourDist h s xs

/-- The stable sort by closeness to the requested hour (line 99-105). -/
def sortBySpecificHour (h : Nat) : List Slot → List Slot
  | [] => []
  | x :: xs => insertByHourDist h x (sortBySpecificHour h xs)

/-- `filtered.some(f => f.date === s.date && f.time === s.time)`. -/
def containsDateTime (l : List Slot) (s : Slot) : Bool :=
  l.any fun f => f.date = s.date ∧ f.time = s.time

/-- The Monday-slot generation pattern used by the Sunday-rescue
branches (lines 148-162, 251-261, 289-300): the three fixed times on a
given date, keeping only instants strictly after now. -/
def genSlotsOnDate (now : Nat) (d : Nat) : List Slot :=
  allTimeSlots.filterMap fun t =>
    let dt := slotInstant d t
    if dt > now then some (buildSlot d t) else none

/-- The next-Monday date computed by the rescue branches from today
(`daysToMonday = 1 - currentDay; if (daysToMonday <= 0) daysToMonday += 7`). -/
def nextMondayFromToday (now : Nat) : Nat :=
  dayOf now + daysUntilWeekday (dayOfWeek (dayOf now)) 1

/-- The zero-match Sunday-rescue branch of getMockAvailableSlots
(lines 131-218): find or synthesize slots on the redirect date `td`. -/
def mondayRescue (slots : List Slot) (prefs : Preferences) (now : Nat) (td : Nat) :
    List Slot :=
  let mondaySlots0 := slots.filter (fun s => s.date = td)
  let mondaySlots1 :=
    if mondaySlots0.isEmpty then genSlotsOnDate now (nextMondayFromToday now)
    else mondaySlots0
  let mondaySlots2 :=
    match prefs.time with
    | some tp =>
        if mondaySlots1.isEmpty then mondaySlots1
        else
          match resolveTimeKeyword tp with
          | [] => mondaySlots1
          | times => mondaySlots1.filter (fun s => times.contains s.time)
    | none => mondaySlots1
  if ¬ mondaySlots2.isEmpty then mondaySlots2.take 2
  else
    let allMondaySlots := slots.filter (fun s => s.date = td)
    if allMondaySlots.isEmpty && mondaySlots2.isEmpty then
      -- last resort (lines 197-210): two fixed Monday slots, no
      -- future-instant guard in the source
      let monday := nextMondayFromToday now
      [buildSlot monday .t10, buildSlot monday .t14]
    else
      if ¬ allMondaySlots.isEmpty then allMondaySlots.take 2 else mondaySlots2.take 2

/-- The preference-filtered result composition of getMockAvailableSlots
(lines 74-219), including the correct-date narrowing for Sunday
requests (lines 82-93). -/
def composeResult (slots filtered0 : List Slot) (isSun : Bool) (targetDate : Option Nat)
    (prefs : Preferences) (now : Nat) : List Slot :=
  let filtered :=
    match isSun, targetDate with
    | true, some td => filtered0.filter (fun s => s.date = td)
    | _, _ => filtered0
  if 2 ≤ filtered.length then
    (match prefs.specificHour with
     | some h => sortBySpecificHour h filtered
     | none => filtered).take 2
  else if filtered.length = 1 then
    let remaining :=
      match isSun, targetDate with
      | true, some td =>
          let r := slots.filter
            (fun (s : Slot) => s.date = td ∧ ¬ containsDateTime filtered s = true)
          if r.isEmpty then
            slots.filter (fun (s : Slot) => ¬ containsDateTime filtered s = true)
          else r
      | _, _ => slots.filter (fun (s : Slot) => ¬ containsDateTime filtered s = true)
    (filtered ++ remaining.take 1).take 2
  else
    match isSun, targetDate with
    | true, some td => mondayRescue slots prefs now td
    | _, _ => slots.take 2

/-- The first "CRITICAL FINAL CHECK" (lines 221-270): if the day
preference contains 'tomorrow', the Sunday flag was not set, and
tomorrow is in fact a Sunday, force the result onto the Monday after
tomorrow and update the flag and target date. -/
def finalCheckTomorrow (slots result : List Slot) (prefs : Preferences) (now : Nat)
    (isSun : Bool) (targetDate : Option Nat) : List Slot × Bool × Option Nat :=
  if prefs.day = some .tomorrow ∧ ¬ isSun then
    let tomorrow := dayOf now + 1
    if dayOfWeek tomorrow = 0 then
      let monday := tomorrow + 1
      if result.any (fun s => s.date = monday) then
        ((result.filter (fun s => s.date = monday)).take 2, true, some monday)
      else
        let mondaySlots0 := slots.filter (fun s => s.date = monday)
        let mondaySlots :=
          if mondaySlots0.isEmpty then genSlotsOnDate now monday else mondaySlots0
        (mondaySlots.take 2, true, some monday)
    else (result, isSun, targetDate)
  else (result, isSun, targetDate)

/-- The second "CRITICAL FINAL CHECK" (lines 272-304): with the Sunday
flag and a target date set, any slot off the target date forces the
result to be rebuilt from target-date slots. -/
def finalCheckSunday (slots result : List Slot) (now : Nat)
    (isSun : Bool) (targetDate : Option Nat) : List Slot :=
  match isSun, targetDate with
  | true, some td =>
      if 0 < (result.filter (fun s => ¬ s.date = td)).length then
        let mondaySlots0 := slots.filter (fun s => s.date = td)
        let mondaySlots :=
          if mondaySlots0.isEmpty then genSlotsOnDate now (nextMondayFromToday now)
          else mondaySlots0
        mondaySlots.take 2
      else result
  | _, _ => result

/-- The result of getMockAvailableSlots: the slot list plus the
`_isSundayRequest` flag the source attaches to the returned array. -/
structure AvailResult where
  slots : List Slot
  isSundayRequest : Bool
deriving Repr

/-- getMockAvailableSlots (lines 30-315). -/
def getMockAvailableSlots (prefs : Preferences) (excludeCode : Option String)
    (r : List Booking) (now : Nat) : AvailResult :=
  let booked := getBookedSlots r excludeCode
  let slots := generateCandidateSlots now booked
  if prefs.day.isSome ∨ prefs.time.isSome then
    let fr := filterSlotsByPreferences slots prefs now
    let result1 := composeResult slots fr.filtered fr.isSundayRequest fr.targetDate prefs now
    let step2 := finalCheckTomorrow slots result1 prefs now fr.isSundayRequest fr.targetDate
    let result3 := finalCheckSunday slots step2.1 now step2.2.1 step2.2.2
    { slots := result3, isSundayRequest := step2.2.1 }
  else
    { slots := slots.take 2, isSundayRequest := false }

example :
    (getMockAvailableSlots {} none [] 0).slots =
      [buildSlot 0 .t10, buildSlot 0 .t14] := by decide

/-!
## Lemmas about the availability engine
-/

/-- A slot whose instant is strictly in the future and whose date is not
a Sunday (the Slot invariant of the specification). -/
def GoodSlot (now : Nat) (s : Slot) : Prop :=
  now < s.datetime ∧ dayOfWeek s.date ≠ 0

theorem dayOfWeek_lt (d : Nat) : dayOfWeek d < 7 := by
  unfold dayOfWeek
  omega

theorem dayOfWeek_succ (d : Nat) : dayOfWeek (d + 1) = (dayOfWeek d + 1) % 7 := by
  unfold dayOfWeek
  omega

theorem daysUntilWeekday_one_pos {c : Nat} (hc : c < 7) : 1 ≤ daysUntilWeekday c 1 := by
  unfold daysUntilWeekday
  split
  all_goals omega

theorem dayOfWeek_nextMonday (d : Nat) :
    dayOfWeek (d + daysUntilWeekday (dayOfWeek d) 1) = 1 := by
  unfold daysUntilWeekday dayOfWeek
  split
  all_goals omega

theorem now_lt_slotInstant (now : Nat) {d : Nat} (t : TimeSlot) (h : dayOf now < d) :
    now < slotInstant d t := by
  unfold slotInstant minutesPerDay
  unfold dayOf minutesPerDay at h
  have h60 : 0 ≤ t.hour * 60 := Nat.zero_le _
  have h1 : (now / 1440 + 1) * 1440 ≤ d * 1440 := Nat.mul_le_mul_right _ h
  omega

theorem nextMondayFromToday_good (now : Nat) (t : TimeSlot) :
    now < slotInstant (nextMondayFromToday now) t ∧
      dayOfWeek (nextMondayFromToday now) = 1 := by
  constructor
  · apply now_lt_slotInstant
    have := daysUntilWeekday_one_pos (dayOfWeek_lt (dayOf now))
    unfold nextMondayFromToday
    omega
  · exact dayOfWeek_nextMonday (dayOf now)

theorem mem_generateCandidateSlots {now : Nat} {booked : List (Nat × TimeSlot)}
    {s : Slot} (h : s ∈ generateCandidateSlots now booked) :
    now < s.datetime ∧ dayOfWeek s.date ≠ 0 := by
  unfold generateCandidateSlots at h
  simp only [List.mem_flatMap, List.mem_range] at h
  obtain ⟨off, _, hmem⟩ := h
  split at hmem
  · simp at hmem
  · simp only [List.mem_filterMap] at hmem
    obtain ⟨t, _, hsome⟩ := hmem
    split at hsome
    · exact absurd hsome (by simp)
    · split at hsome
      · exact absurd hsome (by simp)
      · rename_i hle _
        obtain rfl : buildSlot (dayOf now + off) t = s := by
          simpa using hsome
        refine ⟨by simpa [buildSlot] using Nat.lt_of_not_le (by simpa using hle), ?_⟩
        simpa [buildSlot] using (by assumption : ¬dayOfWeek (dayOf now + off) = 0)

theorem mem_genSlotsOnDate {now d : Nat} {s : Slot} (h : s ∈ genSlotsOnDate now d) :
    s.date = d ∧ now < s.datetime := by
  unfold genSlotsOnDate at h
  simp only [List.mem_filterMap] at h
  obtain ⟨t, _, hsome⟩ := h
  split at hsome
  · obtain rfl : buildSlot d t = s := by simpa using hsome
    exact ⟨rfl, by simpa [buildSlot] using (by assumption : slotInstant d t > now)⟩
  · exact absurd hsome (by simp)

theorem mem_insertByHourDist {h : Nat} {s x : Slot} {l : List Slot}
    (hm : x ∈ insertByHourDist h s l) : x = s ∨ x ∈ l := by
  induction l with
  | nil =>
      simp only [insertByHourDist, List.mem_singleton] at hm
      exact Or.inl hm
  | cons a as ih =>
      unfold insertByHourDist at hm
      split at hm
      · simpa using hm
      · rcases List.mem_cons.mp hm with h1 | h1
        · simp [h1]
        · rcases ih h1 with h2 | h2
          · simp [h2]
          · simp [h2]

theorem mem_sortBySpecificHour {h : Nat} {x : Slot} {l : List Slot}
    (hm : x ∈ sortBySpecificHour h l) : x ∈ l := by
  induction l with
  | nil =>
      simp only [sortBySpecificHour] at hm
      exact hm
  | cons a as ih =>
      unfold sortBySpecificHour at hm
      rcases mem_insertByHourDist hm with h1 | h1
      · simp [h1]
      · simp [ih h1]

theorem length_insertByHourDist (h : Nat) (s : Slot) (l : List Slot) :
    (insertByHourDist h s l).length = l.length + 1 := by
  induction l with
  | nil => simp [insertByHourDist]
  | cons a as ih =>
      unfold insertByHourDist
      split
      · simp
      · simp [ih]

theorem length_sortBySpecificHour (h : Nat) (l : List Slot) :
    (sortBySpecificHour h l).length = l.length := by
  induction l with
  | nil => simp [sortBySpecificHour]
  | cons a as ih =>
      unfold sortBySpecificHour
      rw [length_insertByHourDist, ih]
      simp

/-- All slots of a list satisfy the Slot invariant. -/
def AllGood (now : Nat) (l : List Slot) : Prop := ∀ x ∈ l, GoodSlot now x

theorem allGood_filter {now : Nat} {l : List Slot} (p : Slot → Bool)
    (h : AllGood now l) : AllGood now (l.filter p) :=
  fun x hx => h x (List.mem_of_mem_filter hx)

theorem allGood_take {now : Nat} {l : List Slot} (n : Nat)
    (h : AllGood now l) : AllGood now (l.take n) :=
  fun x hx => h x (List.take_subset _ _ hx)

theorem allGood_append {now : Nat} {l l2 : List Slot}
    (h : AllGood now l) (h2 : AllGood now l2) : AllGood now (l ++ l2) := by
  intro x hx
  rcases List.mem_append.mp hx with hm | hm
  · exact h x hm
  · exact h2 x hm

theorem allGood_sort {now h : Nat} {l : List Slot}
    (hg : AllGood now l) : AllGood now (sortBySpecificHour h l) :=
  fun x hx => hg x (mem_sortBySpecificHour hx)

theorem allGood_genOnDate {now d : Nat} (hd : dayOfWeek d ≠ 0) :
    AllGood now (genSlotsOnDate now d) := by
  intro x hx
  obtain ⟨hdate, hfut⟩ := mem_genSlotsOnDate hx
  exact ⟨hfut, hdate ▸ hd⟩

theorem allGood_genNextMonday (now : Nat) :
    AllGood now (genSlotsOnDate now (nextMondayFromToday now)) :=
  allGood_genOnDate (by rw [(nextMondayFromToday_good now .t10).2]; omega)

theorem allGood_candidates (now : Nat) (booked : List (Nat × TimeSlot)) :
    AllGood now (generateCandidateSlots now booked) :=
  fun _ hx => mem_generateCandidateSlots hx

theorem allGood_lastResort (now : Nat) :
    AllGood now
      [buildSlot (nextMondayFromToday now) .t10,
       buildSlot (nextMondayFromToday now) .t14] := by
  intro x hx
  have h10 := nextMondayFromToday_good now .t10
  have h14 := nextMondayFromToday_good now .t14
  rcases List.mem_cons.mp hx with rfl | hx
  · exact ⟨h10.1, by rw [buildSlot, h10.2]; omega⟩
  · rcases List.mem_cons.mp hx with rfl | hx
    · exact ⟨h14.1, by rw [buildSlot, h14.2]; omega⟩
    · simp at hx

theorem mondayRescue_good {now td : Nat} {slots : List Slot} {prefs : Preferences}
    (hs : AllGood now slots) : AllGood now (mondayRescue slots prefs now td) := by
  intro x hx
  simp only [mondayRescue] at hx
  repeat' split at hx
  all_goals
    first
      | exact allGood_take _ (allGood_filter _ hs) x hx
      | exact allGood_take _ (allGood_filter _ (allGood_filter _ hs)) x hx
      | exact allGood_take _ (allGood_filter _ (allGood_genNextMonday now)) x hx
      | exact allGood_take _ (allGood_genNextMonday now) x hx
      | exact allGood_lastResort now x hx

theorem filterSlots_filtered_good {now : Nat} {slots : List Slot} {prefs : Preferences}
    (hs : AllGood now slots) :
    AllGood now (filterSlotsByPreferences slots prefs now).filtered := by
  intro x hx
  simp only [filterSlotsByPreferences] at hx
  repeat' split at hx
  all_goals
    first
      | exact hs x hx
      | exact allGood_filter _ hs x hx
      | exact allGood_filter _ (allGood_filter _ hs) x hx

theorem composeResult_good {now : Nat} {slots filtered0 : List Slot} {isSun : Bool}
    {targetDate : Option Nat} {prefs : Preferences}
    (hs : AllGood now slots) (hf : AllGood now filtered0) :
    AllGood now (composeResult slots filtered0 isSun targetDate prefs now) := by
  intro x hx
  simp only [composeResult] at hx
  repeat' split at hx
  all_goals
    first
      | exact allGood_take _ hf x hx
      | exact allGood_take _ (allGood_filter _ hf) x hx
      | exact allGood_take _ (allGood_sort hf) x hx
      | exact allGood_take _ (allGood_sort (allGood_filter _ hf)) x hx
      | exact allGood_take _ (allGood_append hf (allGood_take _ (allGood_filter _ hs))) x hx
      | exact allGood_take _
          (allGood_append (allGood_filter _ hf) (allGood_take _ (allGood_filter _ hs))) x hx
      | exact mondayRescue_good hs x hx
      | exact allGood_take _ hs x hx

theorem finalCheckTomorrow_good {now : Nat} {slots result : List Slot}
    {prefs : Preferences} {isSun : Bool} {targetDate : Option Nat}
    (hs : AllGood now slots) (hr : AllGood now result) :
    AllGood now (finalCheckTomorrow slots result prefs now isSun targetDate).1 := by
  intro x hx
  simp only [finalCheckTomorrow] at hx
  repeat' split at hx
  all_goals
    first
      | exact hr x hx
      | exact allGood_take _ (allGood_filter _ hr) x hx
      | exact allGood_take _ (allGood_filter _ hs) x hx
      | exact allGood_take _ (allGood_genOnDate (by unfold dayOfWeek at *; omega)) x hx

theorem finalCheckSunday_good {now : Nat} {slots result : List Slot}
    {isSun : Bool} {targetDate : Option Nat}
    (hs : AllGood now slots) (hr : AllGood now result) :
    AllGood now (finalCheckSunday slots result now isSun targetDate) := by
  intro x hx
  simp only [finalCheckSunday] at hx
  repeat' split at hx
  all_goals
    first
      | exact hr x hx
      | exact allGood_take _ (allGood_filter _ hs) x hx
      | exact allGood_take _ (allGood_genNextMonday now) x hx

theorem getMockAvailableSlots_good (prefs : Preferences) (excludeCode : Option String)
    (r : List Booking) (now : Nat) :
    AllGood now (getMockAvailableSlots prefs excludeCode r now).slots := by
  intro x hx
  simp only [getMockAvailableSlots] at hx
  split at hx
  · exact finalCheckSunday_good (allGood_candidates now _)
      (finalCheckTomorrow_good (allGood_candidates now _)
        (composeResult_good (allGood_candidates now _)
          (filterSlots_filtered_good (allGood_candidates now _)))) x hx
  · exact allGood_take _ (allGood_candidates now _) x hx

theorem finalCheckTomorrow_of_isSun {slots result : List Slot} {prefs : Preferences}
    {now : Nat} {targetDate : Option Nat} :
    finalCheckTomorrow slots result prefs now true targetDate =
      (result, true, targetDate) := by
  simp [finalCheckTomorrow]

theorem finalCheckSunday_dates {slots result : List Slot} {now td : Nat}
    (htd : td = nextMondayFromToday now) :
    ∀ s ∈ finalCheckSunday slots result now true (some td), s.date = td := by
  intro s hs
  simp only [finalCheckSunday] at hs
  split at hs
  · split at hs
    · have h2 := mem_genSlotsOnDate (List.take_subset _ _ hs)
      rw [h2.1, htd]
    · have h2 := List.mem_filter.mp (List.take_subset _ _ hs)
      exact of_decide_eq_true h2.2
  · rename_i hlen
    by_contra hne
    have hmem : s ∈ result.filter (fun x => decide ¬(x.date = td)) :=
      List.mem_filter.mpr ⟨hs, by simpa using hne⟩
    have : 0 < (result.filter (fun x => decide ¬(x.date = td))).length :=
      List.length_pos.mpr (by intro hnil; rw [hnil] at hmem; simp at hmem)
    exact hlen this

theorem mondayRescue_len (slots : List Slot) (prefs : Preferences) (now td : Nat) :
    (mondayRescue slots prefs now td).length ≤ 2 := by
  simp only [mondayRescue]
  repeat' split
  all_goals simp [List.length_take]

theorem composeResult_len (slots filtered0 : List Slot) (isSun : Bool)
    (targetDate : Option Nat) (prefs : Preferences) (now : Nat) :
    (composeResult slots filtered0 isSun targetDate prefs now).length ≤ 2 := by
  simp only [composeResult]
  repeat' split
  all_goals
    first
      | simp [List.length_take]
      | exact mondayRescue_len _ _ _ _

theorem finalCheckTomorrow_len {slots result : List Slot} {prefs : Preferences}
    {now : Nat} {isSun : Bool} {targetDate : Option Nat}
    (hr : result.length ≤ 2) :
    (finalCheckTomorrow slots result prefs now isSun targetDate).1.length ≤ 2 := by
  simp only [finalCheckTomorrow]
  repeat' split
  all_goals
    first
      | exact hr
      | simp [List.length_take]

theorem finalCheckSunday_len {slots result : List Slot} {now : Nat}
    {isSun : Bool} {targetDate : Option Nat} (hr : result.length ≤ 2) :
    (finalCheckSunday slots result now isSun targetDate).length ≤ 2 := by
  simp only [finalCheckSunday]
  repeat' split
  all_goals
    first
      | exact hr
      | simp [List.length_take]

theorem fsp_tomorrow_sunday {slots : List Slot} {prefs : Preferences} {now : Nat}
    (hday : prefs.day = some .tomorrow)
    (hsun : dayOfWeek (dayOf now + 1) = 0) :
    (filterSlotsByPreferences slots prefs now).isSundayRequest = true ∧
      (filterSlotsByPreferences slots prefs now).targetDate =
        some (dayOf now + 1 + 1) := by
  have hdow1 : dayOfWeek (dayOf now + 1 + 1) = 1 := by
    unfold dayOfWeek at hsun ⊢
    omega
  simp only [filterSlotsByPreferences, hday]
  rw [if_pos hsun]
  simp [hdow1]

/-- C3.  Every slot returned by getMockAvailableSlots — for any
preferences, exclusion code, registry contents and generation-time
clock — has an instant strictly after the current IST time and a date
whose IST day-of-week is not Sunday; this covers the slots synthesized
by the Sunday-redirect fallback branches as well. -/
theorem c3_slots_future_and_not_sunday (prefs : Preferences)
    (excludeCode : Option String) (r : List Booking) (now : Nat) (s : Slot)
    (hs : s ∈ (getMockAvailableSlots prefs excludeCode r now).slots) :
    now < s.datetime ∧ dayOfWeek s.date ≠ 0 :=
  getMockAvailableSlots_good prefs excludeCode r now s hs

/-- Witness for C3 at a concrete input: with an empty registry at
instant 0 and no preferences the first returned slot is today 10:00. -/
theorem c3_witness :
    0 < (buildSlot 0 .t10).datetime ∧ dayOfWeek (buildSlot 0 .t10).date ≠ 0 :=
  c3_slots_future_and_not_sunday {} none [] 0 (buildSlot 0 .t10) (by decide)

/-- C4.  If the day preference contains 'tomorrow' and tomorrow in IST
is a Sunday, every slot in the returned list is dated on the following
Monday (the next non-rest day), whichever fallback branch produced the
result. -/
theorem c4_tomorrow_sunday_redirect (prefs : Preferences)
    (excludeCode : Option String) (r : List Booking) (now : Nat)
    (hday : prefs.day = some .tomorrow)
    (hsun : dayOfWeek (dayOf now + 1) = 0) (s : Slot)
    (hs : s ∈ (getMockAvailableSlots prefs excludeCode r now).slots) :
    s.date = dayOf now + 2 := by
  have hnm : nextMondayFromToday now = dayOf now + 2 := by
    have h6 : dayOfWeek (dayOf now) = 6 := by
      unfold dayOfWeek at hsun ⊢
      omega
    unfold nextMondayFromToday
    rw [h6]
    unfold daysUntilWeekday
    norm_num
    rfl
  have hfsp := @fsp_tomorrow_sunday
    (generateCandidateSlots now (getBookedSlots r excludeCode)) prefs now
    hday hsun
  simp only [getMockAvailableSlots] at hs
  rw [if_pos (Or.inl (by rw [hday]; rfl))] at hs
  simp only [] at hs
  rw [hfsp.1, hfsp.2, finalCheckTomorrow_of_isSun] at hs
  simp only [] at hs
  have := finalCheckSunday_dates (by omega : dayOf now + 1 + 1 = nextMondayFromToday now)
    s hs
  omega

/-- Witness for C4 at a concrete input: at instant 2880 (a Saturday)
with day preference 'tomorrow' and an empty registry, the first
returned slot is dated on Monday, day 4. -/
theorem c4_witness : (buildSlot 4 .t10).date = dayOf 2880 + 2 :=
  c4_tomorrow_sunday_redirect { day := some .tomorrow } none [] 2880
    (by rfl) (by decide) (buildSlot 4 .t10) (by decide)

/-- C9.  For every preferences object and registry contents the list
returned by getMockAvailableSlots contains at most 2 slots: every
return path truncates the result with slice(0, 2). -/
theorem c9_at_most_two_slots (prefs : Preferences) (excludeCode : Option String)
    (r : List Booking) (now : Nat) :
    (getMockAvailableSlots prefs excludeCode r now).slots.length ≤ 2 := by
  simp only [getMockAvailableSlots]
  split
  · exact finalCheckSunday_len (finalCheckTomorrow_len (composeResult_len _ _ _ _ _ _))
  · simp [List.length_take]

/-!
## Registry lemmas (bookingStore.js)
-/

/-- The codes of a registry list are pairwise distinct — guaranteed by
construction for the source's `Map` keyed by code. -/
def codesUnique (r : List Booking) : Prop := (r.map (fun b => b.code)).Nodup

theorem getBooking_code {r : List Booking} {code : String} {b : Booking}
    (h : getBooking r code = some b) : b.code = code := by
  have := List.find?_some h
  simpa using this

theorem mem_setBooking_iff {r : List Booking} {b y : Booking}
    (hnodup : codesUnique r) :
    y ∈ setBooking r b ↔ (y = b ∨ (y ∈ r ∧ y.code ≠ b.code)) := by
  induction r with
  | nil =>
      simp [setBooking]
  | cons x xs ih =>
      unfold codesUnique at hnodup
      simp only [List.map_cons, List.nodup_cons] at hnodup
      obtain ⟨hx, hxs⟩ := hnodup
      unfold setBooking
      split
      · rename_i hcode
        constructor
        · intro hy
          rcases List.mem_cons.mp hy with rfl | hy
          · exact Or.inl rfl
          · refine Or.inr ⟨List.mem_cons_of_mem _ hy, ?_⟩
            intro hyc
            exact hx (by
              rw [hcode, ← hyc]
              exact List.mem_map_of_mem _ hy)
        · rintro (rfl | ⟨hy, hyc⟩)
          · exact List.mem_cons_self _ _
          · rcases List.mem_cons.mp hy with rfl | hy
            · exact absurd hcode hyc
            · exact List.mem_cons_of_mem _ hy
      · rename_i hcode
        constructor
        · intro hy
          rcases List.mem_cons.mp hy with rfl | hy
          · exact Or.inr ⟨List.mem_cons_self _ _, hcode⟩
          · rcases (ih hxs).mp hy with h1 | ⟨h1, h2⟩
            · exact Or.inl h1
            · exact Or.inr ⟨List.mem_cons_of_mem _ h1, h2⟩
        · rintro (rfl | ⟨hy, hyc⟩)
          · exact List.mem_cons_of_mem _ ((ih hxs).mpr (Or.inl rfl))
          · rcases List.mem_cons.mp hy with rfl | hy
            · exact List.mem_cons_self _ _
            · exact List.mem_cons_of_mem _ ((ih hxs).mpr (Or.inr ⟨hy, hyc⟩))

theorem getBooking_setBooking_self (r : List Booking) (b : Booking) :
    getBooking (setBooking r b) b.code = some b := by
  induction r with
  | nil =>
      unfold setBooking getBooking
      exact List.find?_cons_of_pos _ (by simp)
  | cons x xs ih =>
      unfold setBooking
      split
      · unfold getBooking
        exact List.find?_cons_of_pos _ (by simp)
      · rename_i hcode
        unfold getBooking
        rw [List.find?_cons_of_neg _ (by simpa using hcode)]
        exact ih

theorem isSlotBooked_eq_true_iff {r : List Booking} {d : Nat} {t : TimeSlot}
    {excl : Option String} :
    isSlotBooked r d t excl = true ↔
      ∃ b ∈ r, b.status ≠ .cancelled ∧ excl ≠ some b.code ∧
        ∃ s, b.selectedSlot = some s ∧ s.date = d ∧ s.time = t := by
  unfold isSlotBooked
  rw [List.any_eq_true]
  constructor
  · rintro ⟨b, hb, hcond⟩
    refine ⟨b, hb, ?_⟩
    split at hcond
    · simp at hcond
    · rename_i hnot
      push_neg at hnot
      refine ⟨hnot.1, hnot.2, ?_⟩
      split at hcond
      · simp at hcond
      · rename_i s hsel
        refine ⟨s, hsel, ?_⟩
        simpa using hcond
  · rintro ⟨b, hb, hst, hexcl, s, hsel, hd, ht⟩
    refine ⟨b, hb, ?_⟩
    rw [if_neg (by tauto)]
    rw [hsel]
    simp [hd, ht]

/-- C10.  Cancelling an existing booking keeps it in the store with
status 'cancelled' and a cancelledAt timestamp; afterwards
isSlotBooked on its slot is true only when some other confirmed booking
occupies the same (date, time); cancelling a nonexistent code returns
null and leaves the store unchanged. -/
theorem c10_cancel_semantics (r : List Booking) (code : String) (now : Nat)
    (hnodup : codesUnique r) :
    (getBooking r code = none → cancelBooking r code now = (none, r)) ∧
      (∀ b, getBooking r code = some b →
        (cancelBooking r code now).1 =
            some { b with status := .cancelled, cancelledAt := some now } ∧
          getBooking (cancelBooking r code now).2 code =
            some { b with status := .cancelled, cancelledAt := some now } ∧
          (∀ s, b.selectedSlot = some s →
            (isSlotBooked (cancelBooking r code now).2 s.date s.time none = true ↔
              ∃ b2 ∈ r, b2.code ≠ code ∧ b2.status = .confirmed ∧
                ∃ s2, b2.selectedSlot = some s2 ∧
                  s2.date = s.date ∧ s2.time = s.time))) := by
  constructor
  · intro hnone
    unfold cancelBooking
    rw [hnone]
  · intro b hsome
    have hbc : b.code = code := getBooking_code hsome
    unfold cancelBooking
    rw [hsome]
    refine ⟨rfl, ?_, ?_⟩
    · have := getBooking_setBooking_self r
        { b with status := .cancelled, cancelledAt := some now }
      simpa [hbc] using this
    · intro s hsel
      rw [isSlotBooked_eq_true_iff]
      constructor
      · rintro ⟨b2, hb2, hst, _, s2, hsel2, hd, ht⟩
        rcases (mem_setBooking_iff hnodup).mp hb2 with rfl | ⟨hb2r, hb2c⟩
        · exact absurd rfl hst
        · refine ⟨b2, hb2r, by simpa [hbc] using hb2c, ?_, s2, hsel2, hd, ht⟩
          cases h2 : b2.status with
          | confirmed => rfl
          | cancelled => exact absurd h2 hst
      · rintro ⟨b2, hb2, hbc2, hst, s2, hsel2, hd, ht⟩
        refine ⟨b2, (mem_setBooking_iff hnodup).mpr
          (Or.inr ⟨hb2, by simpa [hbc] using hbc2⟩), ?_, by simp, s2, hsel2, hd, ht⟩
        rw [hst]
        simp

/-- Witness for C10 at a concrete input: a one-booking registry. -/
theorem c10_witness :
    (getBooking
        [{ code := "NL-AAAA", selectedSlot := some (buildSlot 3 .t10),
           status := .confirmed, createdAt := 0, cancelledAt := none }]
        "NL-ZZZZ" = none →
      cancelBooking
        [{ code := "NL-AAAA", selectedSlot := some (buildSlot 3 .t10),
           status := .confirmed, createdAt := 0, cancelledAt := none }]
        "NL-ZZZZ" 99 =
        (none,
          [{ code := "NL-AAAA", selectedSlot := some (buildSlot 3 .t10),
             status := .confirmed, createdAt := 0, cancelledAt := none }])) ∧
      (∀ b : Booking, getBooking
          [{ code := "NL-AAAA", selectedSlot := some (buildSlot 3 .t10),
             status := .confirmed, createdAt := 0, cancelledAt := none }]
          "NL-ZZZZ" = some b →
        (cancelBooking
            [{ code := "NL-AAAA", selectedSlot := some (buildSlot 3 .t10),
               status := .confirmed, createdAt := 0, cancelledAt := none }]
            "NL-ZZZZ" 99).1 =
            some { b with status := .cancelled, cancelledAt := some 99 } ∧
          getBooking (cancelBooking
              [{ code := "NL-AAAA", selectedSlot := some (buildSlot 3 .t10),
                 status := .confirmed, createdAt := 0, cancelledAt := none }]
              "NL-ZZZZ" 99).2 "NL-ZZZZ" =
            some { b with status := .cancelled, cancelledAt := some 99 } ∧
          (∀ s : Slot, b.selectedSlot = some s →
            (isSlotBooked (cancelBooking
                [{ code := "NL-AAAA", selectedSlot := some (buildSlot 3 .t10),
                   status := .confirmed, createdAt := 0, cancelledAt := none }]
                "NL-ZZZZ" 99).2 s.date s.time none = true ↔
              ∃ b2 ∈
                ([{ code := "NL-AAAA", selectedSlot := some (buildSlot 3 .t10),
                    status := .confirmed, createdAt := 0,
                    cancelledAt := none }] : List Booking),
                b2.code ≠ "NL-ZZZZ" ∧ b2.status = .confirmed ∧
                  ∃ s2, b2.selectedSlot = some s2 ∧
                    s2.date = s.date ∧ s2.time = s.time))) :=
  c10_cancel_semantics _ "NL-ZZZZ" 99 (by simp [codesUnique])

/-!
## Dialog states, sessions and the confirmation turn
(dialogStateMachine.js and the confirmation branch of processMessage)
-/

/-- The STATES enumeration of dialogStateMachine.js. -/
inductive SessionState
  | greeting
  | disclaimer
  | topicSelection
  | timePreference
  | slotOffer
  | confirmation
  | bookingComplete
  | reschedule
  | cancellation
  | availabilityCheck
  | completed
deriving DecidableEq, Repr

/-- JS truthiness of `context.topic` (a string: truthy iff non-empty). -/
def topicTruthy : Option String → Bool
  | none => false
  | some t => ¬ t = ""

/-- getNextState(currentState, action, context) of dialogStateMachine.js:
the transition function of the Dialog State Machine.  `action` is the
outcome tag; `contextTopic` is `context.topic`. -/
def getNextState (currentState : SessionState) (action : String)
    (contextTopic : Option String) : SessionState :=
  match currentState with
  | .greeting => .disclaimer
  | .disclaimer =>
      if action = "acknowledge" then .topicSelection else currentState
  | .topicSelection =>
      if action = "topic_selected" ∧ topicTruthy contextTopic then .timePreference
      else currentState
  | .timePreference =>
      if action = "preferences_collected" then .slotOffer else currentState
  | .slotOffer =>
      if action = "slot_selected" then .confirmation
      else if action = "no_slots_available" then .completed
      else currentState
  | .confirmation =>
      if action = "confirmed" then .bookingComplete
      else if action = "rejected" then .slotOffer
      else currentState
  | .bookingComplete => .completed
  | .reschedule =>
      if action = "reschedule_complete" then .completed else currentState
  | .cancellation =>
      if action = "cancellation_complete" then .completed else currentState
  | .availabilityCheck =>
      if action = "availability_shown" then .completed else currentState
  | .completed => currentState

/-- The outcome tags explicitly tested by getNextState in each state
(the "recognized transition tags"; GREETING and BOOKING_COMPLETE test
none and advance unconditionally). -/
def recognizedActions : SessionState → List String
  | .greeting => []
  | .disclaimer => ["acknowledge"]
  | .topicSelection => ["topic_selected"]
  | .timePreference => ["preferences_collected"]
  | .slotOffer => ["slot_selected", "no_slots_available"]
  | .confirmation => ["confirmed", "rejected"]
  | .bookingComplete => []
  | .reschedule => ["reschedule_complete"]
  | .cancellation => ["cancellation_complete"]
  | .availabilityCheck => ["availability_shown"]
  | .completed => []

/-- The session fields relevant to the confirmation turn (Session Store
record of sessionManager.js, restricted to the fields the modelled
branches read or write). -/
structure Session where
  state : SessionState
  preferences : Preferences
  offeredSlots : List Slot
  selectedSlot : Option Slot
  bookingCode : Option String
deriving DecidableEq, Repr

/-- Result of one confirmation turn: the registry afterwards, the
updated session, and the code of the booking created (if any). -/
structure ConfirmOutcome where
  registry : List Booking
  session : Session
  bookingCreated : Option String
deriving DecidableEq, Repr

/-- The slot-conflict recovery of the confirmation branch
(lines 1341-1373, duplicated verbatim at lines 1390-1424 of the
source): regenerate slots from the session preferences; when any exist,
offer the first two and return to SLOT_OFFER; otherwise clear the
selection and return to TIME_PREFERENCE.  No booking is created. -/
def confirmConflictOutcome (r : List Booking) (sess : Session) (now : Nat) :
    ConfirmOutcome :=
  let newSlots := (getMockAvailableSlots sess.preferences none r now).slots
  if 0 < newSlots.length then
    { registry := r,
      session := { sess with
                     offeredSlots := newSlots.take 2
                     selectedSlot := none
                     state := .slotOffer },
      bookingCreated := none }
  else
    { registry := r,
      session := { sess with selectedSlot := none, state := .timePreference },
      bookingCreated := none }

/-- The confirmation branch of processMessage (lines 1336-1515 of the
source), taken when the session is in CONFIRMATION and the message
contains 'yes' or 'confirm'.  `genCode` is the value produced by
generateBookingCode() at line 1376.  The source checks
isSlotBooked twice on the same registry (lines 1340 and 1387); both
checks are embedded.  When `selectedSlot` is null the source skips the
first conflict check and then throws a TypeError reading
`selectedSlot.date` at line 1387, modelled as `none`.  External
side-effect calls (calendar, sheet, email) do not affect the registry
and are omitted. -/
def handleConfirmationTurn (r : List Booking) (sess : Session) (now : Nat)
    (genCode : String) : Option ConfirmOutcome :=
  match sess.selectedSlot with
  | none => none
  | some sel =>
      if isSlotBooked r sel.date sel.time none then
        some (confirmConflictOutcome r sess now)
      else
        -- line 1376: const bookingCode = generateBookingCode()
        -- line 1387: second conflict check on the same registry
        if isSlotBooked r sel.date sel.time none then
          some (confirmConflictOutcome r sess now)
        else
          some { registry := createBooking r genCode (some sel) now,
                 session := { sess with
                                bookingCode := some genCode
                                state := .bookingComplete },
                 bookingCreated := some genCode }

/-- C2.  In state CONFIRMATION with a confirming message, the engine
re-checks isSlotBooked on the session's selectedSlot before creating
any booking; when the slot is taken no booking is created and the
registry is untouched, the session moves to SLOT_OFFER with freshly
regenerated offeredSlots when alternatives exist, and to
TIME_PREFERENCE when no alternative exists. -/
theorem c2_confirmation_conflict_recovery (r : List Booking) (sess : Session)
    (now : Nat) (genCode : String) (sel : Slot)
    (hsel : sess.selectedSlot = some sel)
    (hbooked : isSlotBooked r sel.date sel.time none = true) :
    handleConfirmationTurn r sess now genCode =
        some (confirmConflictOutcome r sess now) ∧
      (confirmConflictOutcome r sess now).registry = r ∧
      (confirmConflictOutcome r sess now).bookingCreated = none ∧
      (0 < (getMockAvailableSlots sess.preferences none r now).slots.length →
        (confirmConflictOutcome r sess now).session.state = .slotOffer ∧
          (confirmConflictOutcome r sess now).session.offeredSlots =
            (getMockAvailableSlots sess.preferences none r now).slots.take 2 ∧
          (confirmConflictOutcome r sess now).session.selectedSlot = none) ∧
      ((getMockAvailableSlots sess.preferences none r now).slots.length = 0 →
        (confirmConflictOutcome r sess now).session.state = .timePreference ∧
          (confirmConflictOutcome r sess now).session.selectedSlot = none) := by
  refine ⟨?_, ?_⟩
  · unfold handleConfirmationTurn
    rw [hsel]
    simp [hbooked]
  · simp only [confirmConflictOutcome]
    split
    · rename_i hpos
      exact ⟨rfl, rfl, fun _ => ⟨rfl, rfl, rfl⟩, fun hzero => absurd hpos (by omega)⟩
    · rename_i hneg
      exact ⟨rfl, rfl, fun hpos => absurd hpos hneg, fun _ => ⟨rfl, rfl⟩⟩

/-- Witness for C2 at a concrete input: a session in CONFIRMATION whose
selected slot (day 0, 10:00) is already booked by another session. -/
theorem c2_witness :
    handleConfirmationTurn
        [{ code := "NL-AAAA", selectedSlot := some (buildSlot 0 .t10),
           status := .confirmed, createdAt := 0, cancelledAt := none }]
        { state := .confirmation, preferences := {}, offeredSlots := [],
          selectedSlot := some (buildSlot 0 .t10), bookingCode := none }
        0 "NL-BBBB" =
        some (confirmConflictOutcome
          [{ code := "NL-AAAA", selectedSlot := some (buildSlot 0 .t10),
             status := .confirmed, createdAt := 0, cancelledAt := none }]
          { state := .confirmation, preferences := {}, offeredSlots := [],
            selectedSlot := some (buildSlot 0 .t10), bookingCode := none }
          0) ∧
      (confirmConflictOutcome
          [{ code := "NL-AAAA", selectedSlot := some (buildSlot 0 .t10),
             status := .confirmed, createdAt := 0, cancelledAt := none }]
          { state := .confirmation, preferences := {}, offeredSlots := [],
            selectedSlot := some (buildSlot 0 .t10), bookingCode := none }
          0).registry =
        [{ code := "NL-AAAA", selectedSlot := some (buildSlot 0 .t10),
           status := .confirmed, createdAt := 0, cancelledAt := none }] ∧
      (confirmConflictOutcome
          [{ code := "NL-AAAA", selectedSlot := some (buildSlot 0 .t10),
             status := .confirmed, createdAt := 0, cancelledAt := none }]
          { state := .confirmation, preferences := {}, offeredSlots := [],
            selectedSlot := some (buildSlot 0 .t10), bookingCode := none }
          0).bookingCreated = none ∧
      (0 < (getMockAvailableSlots {} none
          [{ code := "NL-AAAA", selectedSlot := some (buildSlot 0 .t10),
             status := .confirmed, createdAt := 0, cancelledAt := none }]
          0).slots.length →
        (confirmConflictOutcome
            [{ code := "NL-AAAA", selectedSlot := some (buildSlot 0 .t10),
               status := .confirmed, createdAt := 0, cancelledAt := none }]
            { state := .confirmation, preferences := {}, offeredSlots := [],
              selectedSlot := some (buildSlot 0 .t10), bookingCode := none }
            0).session.state = .slotOffer ∧
          (confirmConflictOutcome
              [{ code := "NL-AAAA", selectedSlot := some (buildSlot 0 .t10),
                 status := .confirmed, createdAt := 0, cancelledAt := none }]
              { state := .confirmation, preferences := {}, offeredSlots := [],
                selectedSlot := some (buildSlot 0 .t10), bookingCode := none }
              0).session.offeredSlots =
            (getMockAvailableSlots {} none
                [{ code := "NL-AAAA", selectedSlot := some (buildSlot 0 .t10),
                   status := .confirmed, createdAt := 0, cancelledAt := none }]
                0).slots.take 2 ∧
          (confirmConflictOutcome
              [{ code := "NL-AAAA", selectedSlot := some (buildSlot 0 .t10),
                 status := .confirmed, createdAt := 0, cancelledAt := none }]
              { state := .confirmation, preferences := {}, offeredSlots := [],
                selectedSlot := some (buildSlot 0 .t10), bookingCode := none }
              0).session.selectedSlot = none) ∧
      ((getMockAvailableSlots {} none
          [{ code := "NL-AAAA", selectedSlot := some (buildSlot 0 .t10),
             status := .confirmed, createdAt := 0, cancelledAt := none }]
          0).slots.length = 0 →
        (confirmConflictOutcome
            [{ code := "NL-AAAA", selectedSlot := some (buildSlot 0 .t10),
               status := .confirmed, createdAt := 0, cancelledAt := none }]
            { state := .confirmation, preferences := {}, offeredSlots := [],
              selectedSlot := some (buildSlot 0 .t10), bookingCode := none }
            0).session.state = .timePreference ∧
          (confirmConflictOutcome
              [{ code := "NL-AAAA", selectedSlot := some (buildSlot 0 .t10),
                 status := .confirmed, createdAt := 0, cancelledAt := none }]
              { state := .confirmation, preferences := {}, offeredSlots := [],
                selectedSlot := some (buildSlot 0 .t10), bookingCode := none }
              0).session.selectedSlot = none) :=
  c2_confirmation_conflict_recovery _ _ 0 "NL-BBBB" (buildSlot 0 .t10)
    (by rfl) (by decide)

/-!
## The double-booking invariant over conversation turns
-/

theorem mem_setBooking_weak {r : List Booking} {b y : Booking}
    (h : y ∈ setBooking r b) : y = b ∨ y ∈ r := by
  induction r with
  | nil =>
      simp only [setBooking, List.mem_singleton] at h
      exact Or.inl h
  | cons x xs ih =>
      unfold setBooking at h
      split at h
      · rcases List.mem_cons.mp h with rfl | h
        · exact Or.inl rfl
        · exact Or.inr (List.mem_cons_of_mem _ h)
      · rcases List.mem_cons.mp h with rfl | h
        · exact Or.inr (List.mem_cons_self _ _)
        · rcases ih h with h1 | h1
          · exact Or.inl h1
          · exact Or.inr (List.mem_cons_of_mem _ h1)

theorem codesUnique_setBooking {r : List Booking} {b : Booking}
    (h : codesUnique r) : codesUnique (setBooking r b) := by
  induction r with
  | nil =>
      simp [setBooking, codesUnique]
  | cons x xs ih =>
      unfold codesUnique at h
      simp only [List.map_cons, List.nodup_cons] at h
      obtain ⟨hx, hxs⟩ := h
      unfold setBooking
      split
      · rename_i hcode
        unfold codesUnique
        simp only [List.map_cons, List.nodup_cons]
        exact ⟨by rw [← hcode]; exact hx, hxs⟩
      · rename_i hcode
        unfold codesUnique
        simp only [List.map_cons, List.nodup_cons]
        refine ⟨?_, ih hxs⟩
        intro hmem
        rcases List.mem_map.mp hmem with ⟨y, hy, hyc⟩
        rcases mem_setBooking_weak hy with rfl | hy
        · exact hcode hyc.symm
        · exact hx (hyc ▸ List.mem_map_of_mem _ hy)

theorem getBooking_mem {r : List Booking} {code : String} {b : Booking}
    (h : getBooking r code = some b) : b ∈ r :=
  List.mem_of_find?_eq_some h

/-- The central registry invariant: no two (code-distinct) confirmed
bookings occupy the same (date, time). -/
def NoDoubleBooking (r : List Booking) : Prop :=
  ∀ b1 ∈ r, ∀ b2 ∈ r, b1.code ≠ b2.code →
    b1.status = .confirmed → b2.status = .confirmed →
    ∀ s1 s2, b1.selectedSlot = some s1 → b2.selectedSlot = some s2 →
      ¬(s1.date = s2.date ∧ s1.time = s2.time)

/-- Well-formedness of the Booking Registry: unique codes (by
construction of the source's Map) plus the no-double-booking
invariant. -/
def RegistryInv (r : List Booking) : Prop := codesUnique r ∧ NoDoubleBooking r

theorem inv_createBooking {r : List Booking} (code : String) (slot : Slot) (now : Nat)
    (hinv : RegistryInv r)
    (hfree : isSlotBooked r slot.date slot.time none = false) :
    RegistryInv (createBooking r code (some slot) now) := by
  obtain ⟨hnodup, hnd⟩ := hinv
  refine ⟨codesUnique_setBooking hnodup, ?_⟩
  intro b1 hb1 b2 hb2 hcode h1conf h2conf s1 s2 hs1 hs2 heq
  rcases (mem_setBooking_iff hnodup).mp hb1 with rfl | ⟨hb1r, hb1c⟩ <;>
    rcases (mem_setBooking_iff hnodup).mp hb2 with h2 | ⟨hb2r, hb2c⟩
  · exact hcode (by rw [h2])
  · obtain rfl : slot = s1 := by simpa using hs1
    have hb : isSlotBooked r slot.date slot.time none = true :=
      isSlotBooked_eq_true_iff.mpr
        ⟨b2, hb2r, by rw [h2conf]; simp, by simp, s2, hs2, heq.1.symm, heq.2.symm⟩
    rw [hfree] at hb
    exact Bool.false_ne_true hb
  · subst h2
    obtain rfl : slot = s2 := by simpa using hs2
    have hb : isSlotBooked r slot.date slot.time none = true :=
      isSlotBooked_eq_true_iff.mpr
        ⟨b1, hb1r, by rw [h1conf]; simp, by simp, s1, hs1, heq.1, heq.2⟩
    rw [hfree] at hb
    exact Bool.false_ne_true hb
  · exact hnd b1 hb1r b2 hb2r hcode h1conf h2conf s1 s2 hs1 hs2 heq

theorem inv_cancelBooking {r : List Booking} (code : String) (now : Nat)
    (hinv : RegistryInv r) : RegistryInv (cancelBooking r code now).2 := by
  obtain ⟨hnodup, hnd⟩ := hinv
  unfold cancelBooking
  split
  · exact ⟨hnodup, hnd⟩
  · rename_i b hsome
    refine ⟨codesUnique_setBooking hnodup, ?_⟩
    intro b1 hb1 b2 hb2 hcode h1conf h2conf s1 s2 hs1 hs2 heq
    rcases (mem_setBooking_iff hnodup).mp hb1 with rfl | ⟨hb1r, _⟩
    · simp at h1conf
    · rcases (mem_setBooking_iff hnodup).mp hb2 with rfl | ⟨hb2r, _⟩
      · simp at h2conf
      · exact hnd b1 hb1r b2 hb2r hcode h1conf h2conf s1 s2 hs1 hs2 heq

/-- JS truthiness of a nullable string (null and the empty string are
falsy). -/
def strTruthy : Option String → Bool
  | none => false
  | some v => ¬ v = ""

/-- updateBooking(bookingCode, updates) of bookingStore.js, restricted
to the reschedule update `{ selectedSlot: newSlot, previousSlot }`:
null when the code is absent, otherwise the stored booking is updated
in place (`Object.assign`).  `previousSlot` — the audit copy of the
replaced slot — and `updatedAt` are not tracked by the Booking model. -/
def updateBookingSlot (r : List Booking) (code : String) (newSlot : Slot) :
    Option Booking × List Booking :=
  match getBooking r code with
  | none => (none, r)
  | some b =>
      let b2 : Booking := { b with selectedSlot := some newSlot }
      (some b2, setBooking r b2)

/-- The registry effect of a reschedule turn.  handleRescheduleIntent
(conversationEngine.js lines 287-360) emits `reschedule_confirmed` for
the offered slot the user picked only after re-checking isSlotBooked
with the rescheduled booking's own code excluded (line 296) and
re-fetching the booking by that code (line 347); on conflict it
re-offers alternatives and commits nothing.  The reschedule_confirmed
branch of processMessage (bookingStore.js lines 843-899) then calls
updateBooking only when `booking && booking.calendarEventId && newSlot`
holds (line 849): a booking without a calendar event reference is never
updated in the registry (only the session state and side-effect
bookkeeping change). -/
def rescheduleCommit (r : List Booking) (code : String) (newSlot : Slot) :
    List Booking :=
  if isSlotBooked r newSlot.date newSlot.time (some code) then r
  else
    match getBooking r code with
    | none => r
    | some booking =>
        if strTruthy booking.calendarEventId then (updateBookingSlot r code newSlot).2
        else r

theorem inv_updateBookingSlot {r : List Booking} (code : String) (newSlot : Slot)
    (hinv : RegistryInv r)
    (hfree : isSlotBooked r newSlot.date newSlot.time (some code) = false) :
    RegistryInv (updateBookingSlot r code newSlot).2 := by
  obtain ⟨hnodup, hnd⟩ := hinv
  unfold updateBookingSlot
  split
  · exact ⟨hnodup, hnd⟩
  · rename_i b hsome
    have hbc : b.code = code := getBooking_code hsome
    refine ⟨codesUnique_setBooking hnodup, ?_⟩
    intro b1 hb1 b2 hb2 hcode h1conf h2conf s1 s2 hs1 hs2 heq
    rcases (mem_setBooking_iff hnodup).mp hb1 with rfl | ⟨hb1r, hb1c⟩ <;>
      rcases (mem_setBooking_iff hnodup).mp hb2 with h2 | ⟨hb2r, hb2c⟩
    · exact hcode (by rw [h2])
    · obtain rfl : newSlot = s1 := by simpa using hs1
      have hb : isSlotBooked r newSlot.date newSlot.time (some code) = true :=
        isSlotBooked_eq_true_iff.mpr
          ⟨b2, hb2r, by rw [h2conf]; simp,
           by
             intro heq2
             apply hb2c
             have hc : code = b2.code := by injection heq2
             show b2.code = b.code
             rw [hbc, ← hc],
           s2, hs2, heq.1.symm, heq.2.symm⟩
      rw [hfree] at hb
      exact Bool.false_ne_true hb
    · subst h2
      obtain rfl : newSlot = s2 := by simpa using hs2
      have hb : isSlotBooked r newSlot.date newSlot.time (some code) = true :=
        isSlotBooked_eq_true_iff.mpr
          ⟨b1, hb1r, by rw [h1conf]; simp,
           by
             intro heq2
             apply hb1c
             have hc : code = b1.code := by injection heq2
             show b1.code = b.code
             rw [hbc, ← hc],
           s1, hs1, heq.1, heq.2⟩
      rw [hfree] at hb
      exact Bool.false_ne_true hb
    · exact hnd b1 hb1r b2 hb2r hcode h1conf h2conf s1 s2 hs1 hs2 heq

theorem inv_rescheduleCommit {r : List Booking} (code : String) (newSlot : Slot)
    (hinv : RegistryInv r) : RegistryInv (rescheduleCommit r code newSlot) := by
  unfold rescheduleCommit
  split
  · exact hinv
  · rename_i hfree
    rw [Bool.not_eq_true] at hfree
    split
    · exact hinv
    · split
      · exact inv_updateBookingSlot code newSlot hinv hfree
      · exact hinv

theorem confirmConflictOutcome_registry (r : List Booking) (sess : Session)
    (now : Nat) : (confirmConflictOutcome r sess now).registry = r := by
  simp only [confirmConflictOutcome]
  split
  all_goals rfl

/-- One conversation turn, restricted to its effect on the Booking
Registry: a confirmation commit (the confirmation branch of
processMessage), a cancellation (cancellation_confirmed branch calling
cancelBooking), a reschedule commit (handleRescheduleIntent's
reschedule_confirmed outcome and the updateBooking call it triggers in
processMessage, embedded in rescheduleCommit), or any other turn, which
does not mutate the registry. -/
inductive Turn
  | confirm (sess : Session) (genCode : String) (now : Nat)
  | cancelTurn (code : String) (now : Nat)
  | rescheduleTurn (code : String) (newSlot : Slot)
  | other

/-- The registry after one conversation turn. -/
def applyTurn (r : List Booking) : Turn → List Booking
  | .confirm sess genCode now =>
      match handleConfirmationTurn r sess now genCode with
      | some out => out.registry
      | none => r
  | .cancelTurn code now => (cancelBooking r code now).2
  | .rescheduleTurn code newSlot => rescheduleCommit r code newSlot
  | .other => r

theorem inv_confirmRegistry {r : List Booking} (sess : Session) (genCode : String)
    (now : Nat) (hinv : RegistryInv r) :
    RegistryInv (match handleConfirmationTurn r sess now genCode with
      | some out => out.registry
      | none => r) := by
  unfold handleConfirmationTurn
  cases hsel : sess.selectedSlot with
  | none => exact hinv
  | some sel =>
      by_cases hb : isSlotBooked r sel.date sel.time none = true
      -- either conflict check fires: registry untouched
      · simp only [if_pos hb]
        rw [confirmConflictOutcome_registry]
        exact hinv
      -- both checks passed: guarded createBooking
      · simp only [if_neg hb]
        rw [Bool.not_eq_true] at hb
        exact inv_createBooking genCode sel now hinv hb

theorem inv_applyTurn {r : List Booking} (t : Turn) (hinv : RegistryInv r) :
    RegistryInv (applyTurn r t) := by
  cases t with
  | confirm sess genCode now =>
      simp only [applyTurn]
      exact inv_confirmRegistry sess genCode now hinv
  | cancelTurn code now => exact inv_cancelBooking code now hinv
  | rescheduleTurn code newSlot => exact inv_rescheduleCommit code newSlot hinv
  | other => exact hinv

/-- C1.  Along every sequence of conversation turns, the Booking
Registry never holds two distinct confirmed bookings with the same
(date, time): the no-double-booking invariant (together with code
uniqueness of the Map) is preserved by every turn, because the
confirmation branch commits a new booking only after isSlotBooked
reports the selected slot free, and the reschedule path commits the new
slot only after handleRescheduleIntent's re-check with the booking's
own code excluded (and only for bookings carrying a calendarEventId). -/
theorem c1_no_double_booking (ts : List Turn) (r : List Booking)
    (hinv : RegistryInv r) : RegistryInv (ts.foldl applyTurn r) := by
  induction ts generalizing r with
  | nil => exact hinv
  | cons t rest ih => exact ih _ (inv_applyTurn t hinv)

/-- Witness for C1 at a concrete input: two confirmation turns from an
empty registry (the second one targeting the already-taken slot),
followed by a reschedule turn and a cancellation. -/
theorem c1_witness :
    RegistryInv
      ([Turn.confirm
          { state := .confirmation, preferences := {}, offeredSlots := [],
            selectedSlot := some (buildSlot 0 .t10), bookingCode := none }
          "NL-AAAA" 0,
        Turn.confirm
          { state := .confirmation, preferences := {}, offeredSlots := [],
            selectedSlot := some (buildSlot 0 .t10), bookingCode := none }
          "NL-BBBB" 0,
        Turn.rescheduleTurn "NL-AAAA" (buildSlot 1 .t14),
        Turn.cancelTurn "NL-AAAA" 99].foldl applyTurn []) :=
  c1_no_double_booking _ []
    ⟨by simp [codesUnique], by intro b1 hb1; simp at hb1⟩

/-- C6.  The source's commit path calls generateBookingCode() exactly
once (line 1376) and never consults the registry about the freshly
generated code: there is no retry loop.  When the generated code
collides with an existing booking, `bookings.set` silently replaces
that booking.  Evaluated here at a failing input: the registry holds
"NL-AB22" for day 5 at 10:00; a confirmation turn for the free slot
day 5 at 14:00 whose generated code is again "NL-AB22" commits anyway
and the prior confirmed booking record is lost. -/
theorem c6_collision_overwrites_without_retry :
    handleConfirmationTurn
        [{ code := "NL-AB22", selectedSlot := some (buildSlot 5 .t10),
           status := .confirmed, createdAt := 0, cancelledAt := none }]
        { state := .confirmation, preferences := {}, offeredSlots := [],
          selectedSlot := some (buildSlot 5 .t14), bookingCode := none }
        0 "NL-AB22" =
      some
        { registry :=
            [{ code := "NL-AB22", selectedSlot := some (buildSlot 5 .t14),
               status := .confirmed, createdAt := 0, cancelledAt := none }],
          session :=
            { state := .bookingComplete, preferences := {}, offeredSlots := [],
              selectedSlot := some (buildSlot 5 .t14),
              bookingCode := some "NL-AB22" },
          bookingCreated := some "NL-AB22" } ∧
      isSlotBooked
        [{ code := "NL-AB22", selectedSlot := some (buildSlot 5 .t14),
           status := .confirmed, createdAt := 0, cancelledAt := none }]
        5 .t10 none = false := by
  constructor
  · rfl
  · decide

/-- Counterexample for C7 as stated: in state GREETING the transition
function advances to DISCLAIMER on any outcome tag, including
unrecognized ones, instead of staying in GREETING. -/
theorem c7_counterexample :
    "unrecognized_outcome" ∉ recognizedActions .greeting ∧
      getNextState .greeting "unrecognized_outcome" none ≠ .greeting := by
  constructor
  · decide
  · decide

/-- C7 (amended).  For every dialog state other than GREETING and
BOOKING_COMPLETE — which advance unconditionally on any outcome — an
outcome tag that is not among the state's recognized transition tags
leaves the session in its current state. -/
theorem c7_unrecognized_action_noop (s : SessionState) (a : String)
    (ctx : Option String) (hg : s ≠ .greeting) (hbc : s ≠ .bookingComplete)
    (ha : a ∉ recognizedActions s) : getNextState s a ctx = s := by
  cases s with
  | greeting => exact absurd rfl hg
  | bookingComplete => exact absurd rfl hbc
  | disclaimer =>
      simp only [recognizedActions, List.mem_singleton] at ha
      simp [getNextState, ha]
  | topicSelection =>
      simp only [recognizedActions, List.mem_singleton] at ha
      simp [getNextState, ha]
  | timePreference =>
      simp only [recognizedActions, List.mem_singleton] at ha
      simp [getNextState, ha]
  | slotOffer =>
      simp only [recognizedActions, List.mem_cons, List.mem_singleton] at ha
      push_neg at ha
      simp [getNextState, ha.1, ha.2]
  | confirmation =>
      simp only [recognizedActions, List.mem_cons, List.mem_singleton] at ha
      push_neg at ha
      simp [getNextState, ha.1, ha.2]
  | reschedule =>
      simp only [recognizedActions, List.mem_singleton] at ha
      simp [getNextState, ha]
  | cancellation =>
      simp only [recognizedActions, List.mem_singleton] at ha
      simp [getNextState, ha]
  | availabilityCheck =>
      simp only [recognizedActions, List.mem_singleton] at ha
      simp [getNextState, ha]
  | completed => rfl

/-- Witness for the amended C7 at a concrete input. -/
theorem c7_witness : getNextState .disclaimer "garbled_input" none = .disclaimer :=
  c7_unrecognized_action_noop .disclaimer "garbled_input" none
    (by decide) (by decide) (by decide)

/-!
## Booking Code Generator (bookingCode.js)
-/

/-- The restricted alphabet of generateBookingCode:
`'ABCDEFGHJKLMNPQRSTUVWXYZ23456789'` — "Excluding confusing chars like
0, O, I, 1". -/
def bookingCodeChars : List Char :=
  ['A', 'B', 'C', 'D', 'E', 'F', 'G', 'H', 'J', 'K', 'L', 'M', 'N', 'P',
   'Q', 'R', 'S', 'T', 'U', 'V', 'W', 'X', 'Y', 'Z', '2', '3', '4', '5',
   '6', '7', '8', '9']

theorem bookingCodeChars_length : bookingCodeChars.length = 32 := rfl

/-- generateBookingCode(): the prefix `'NL'`, a dash, then four
characters of the alphabet (the `for` loop of the source, unrolled).
`Math.floor(Math.random() * chars.length)` yields an index below 32,
supplied here as the `pick` argument; the code is modelled as its
character list. -/
def generateBookingCode (pick : Fin 4 → Fin 32) : List Char :=
  ['N', 'L', '-',
   bookingCodeChars.get (Fin.cast bookingCodeChars_length.symm (pick 0)),
   bookingCodeChars.get (Fin.cast bookingCodeChars_length.symm (pick 1)),
   bookingCodeChars.get (Fin.cast bookingCodeChars_length.symm (pick 2)),
   bookingCodeChars.get (Fin.cast bookingCodeChars_length.symm (pick 3))]

/-- `[A-Z]` of the claimed regular expression. -/
def isUpperLetter (c : Char) : Bool := 'A' ≤ c ∧ c ≤ 'Z'

/-- `[0-9]` of the claimed regular expression. -/
def isDigitChar (c : Char) : Bool := '0' ≤ c ∧ c ≤ '9'

/-- Decides the full-string regular expression `^[A-Z]{2}-[A-Z0-9]{4}$`. -/
def codeFormatOk : List Char → Bool
  | [c0, c1, c2, c3, c4, c5, c6] =>
      isUpperLetter c0 && isUpperLetter c1 && c2 = '-' &&
        (isUpperLetter c3 || isDigitChar c3) &&
        (isUpperLetter c4 || isDigitChar c4) &&
        (isUpperLetter c5 || isDigitChar c5) &&
        (isUpperLetter c6 || isDigitChar c6)
  | _ => false

/-- The excluded-ambiguous character set {0, O, 1, I}. -/
def ambiguousChars : List Char := ['0', 'O', '1', 'I']

/-- Counterexample for C5 as stated: the restricted alphabet from which
the four suffix characters are drawn has 32 characters (36 alphanumerics
minus the 4 ambiguous ones), not 33 as claimed. -/
theorem c5_counterexample :
    bookingCodeChars.length = 32 ∧ bookingCodeChars.length ≠ 33 := by
  constructor
  · rfl
  · decide

/-- C5 (amended).  Every code produced by generateBookingCode matches
`^[A-Z]{2}-[A-Z0-9]{4}$`, contains no character of the
excluded-ambiguous set {0, O, 1, I}, and its four suffix characters are
drawn from the 32-character restricted alphabet. -/
theorem c5_code_format (pick : Fin 4 → Fin 32) :
    codeFormatOk (generateBookingCode pick) = true ∧
      (∀ c ∈ generateBookingCode pick, c ∉ ambiguousChars) ∧
      (∀ c ∈ (generateBookingCode pick).drop 3, c ∈ bookingCodeChars) := by
  have hget : ∀ idx : Fin bookingCodeChars.length,
      bookingCodeChars.get idx ∈ bookingCodeChars := by
    intro idx
    obtain ⟨n, hn⟩ := idx
    exact List.get_mem _ _ _
  have hmem : ∀ i : Fin 4,
      bookingCodeChars.get (Fin.cast bookingCodeChars_length.symm (pick i)) ∈
        bookingCodeChars := fun i => hget _
  have hok : ∀ c ∈ bookingCodeChars,
      (isUpperLetter c || isDigitChar c) = true ∧ c ∉ ambiguousChars := by decide
  refine ⟨?_, ?_, ?_⟩
  · simp only [generateBookingCode, codeFormatOk, Bool.and_eq_true]
    refine ⟨⟨⟨⟨⟨⟨by decide, by decide⟩, by decide⟩, (hok _ (hmem 0)).1⟩,
      (hok _ (hmem 1)).1⟩, (hok _ (hmem 2)).1⟩, (hok _ (hmem 3)).1⟩
  · intro c hc
    simp only [generateBookingCode, List.mem_cons, List.not_mem_nil, or_false] at hc
    rcases hc with rfl | rfl | rfl | rfl | rfl | rfl | rfl
    · decide
    · decide
    · decide
    · exact (hok _ (hmem 0)).2
    · exact (hok _ (hmem 1)).2
    · exact (hok _ (hmem 2)).2
    · exact (hok _ (hmem 3)).2
  · intro c hc
    simp only [generateBookingCode, List.drop_succ_cons, List.drop_zero,
      List.mem_cons, List.not_mem_nil, or_false] at hc
    rcases hc with rfl | rfl | rfl | rfl
    · exact hmem 0
    · exact hmem 1
    · exact hmem 2
    · exact hmem 3

/-!
## Guardrail Filter (guardrails.js)

The four PII_PATTERNS are regex literals created once at module load:

  /\b\d{10}\b/g                                   10-digit phone numbers
  /\b\d{12}\b/g                                   12-digit account numbers
  /\b[A-Za-z0-9._%+-]+@[A-Za-z0-9.-]+\.[A-Z|a-z]{2,}\b/g   email
  /\b\d{4}[\s-]?\d{4}[\s-]?\d{4}[\s-]?\d{4}\b/g   card numbers

detectPII runs `pattern.test(message)` over them in this order and
returns true on the first hit.  Because each pattern carries the `g`
flag, `RegExp.prototype.test` is stateful: the search begins at the
pattern's `lastIndex`, which is set to the end of the match on success
and reset to 0 on failure, and this state persists across calls.  The
matchers below embed each pattern as a positional match function
(returning the match end), with greedy quantifiers and backtracking as
in the JS engine; `\s` is modelled as ASCII whitespace.  Messages are
modelled as their character lists.
-/

/-- JS `\w` (`[A-Za-z0-9_]`, ASCII). -/
def isWordChar (c : Char) : Bool := c.isAlpha || c.isDigit || c = '_'

def wordCharAt (s : List Char) (i : Nat) : Bool :=
  match s.get? i with
  | some c => isWordChar c
  | none => false

/-- JS `\b`: a word/non-word transition (string edges count as
non-word). -/
def boundaryAt (s : List Char) (i : Nat) : Bool :=
  (if i = 0 then false else wordCharAt s (i - 1)) != wordCharAt s i

/-- `\d{n}` at position i. -/
def digitRunAt (s : List Char) (i n : Nat) : Bool :=
  (List.range n).all fun k =>
    match s.get? (i + k) with
    | some c => c.isDigit
    | none => false

/-- `\b\d{10}\b` at position i (match end on success). -/
def matchPhoneAt (s : List Char) (i : Nat) : Option Nat :=
  if boundaryAt s i && digitRunAt s i 10 && boundaryAt s (i + 10) then some (i + 10)
  else none

/-- `\b\d{12}\b` at position i. -/
def matchAccountAt (s : List Char) (i : Nat) : Option Nat :=
  if boundaryAt s i && digitRunAt s i 12 && boundaryAt s (i + 12) then some (i + 12)
  else none

/-- `[A-Za-z0-9._%+-]` (the local part class; it excludes `@`). -/
def emailLocalChar (c : Char) : Bool :=
  c.isAlpha || c.isDigit || c = '.' || c = '_' || c = '%' || c = '+' || c = '-'

/-- `[A-Za-z0-9.-]` (the domain class; it contains the dot). -/
def emailDomainChar (c : Char) : Bool := c.isAlpha || c.isDigit || c = '.' || c = '-'

/-- `[A-Z|a-z]` — the class as written in the source, bar included. -/
def emailTldChar (c : Char) : Bool := c.isAlpha || c = '|'

/-- Length of the maximal run of characters satisfying p from i. -/
def runLength (s : List Char) (i : Nat) (p : Char → Bool) : Nat :=
  ((s.drop i).takeWhile p).length

/-- `[A-Z|a-z]{2,}\b` at position p: greedy, backtracking the run
length down to 2 until the trailing boundary holds. -/
def matchEmailTldAt (s : List Char) (p : Nat) : Option Nat :=
  let T := runLength s p emailTldChar
  (((List.range (T + 1)).reverse).filter (fun t => 2 ≤ t)).findSome? fun t =>
    if boundaryAt s (p + t) then some (p + t) else none

/-- The email pattern at position i.  The greedy local-part run needs
no backtracking because its class excludes `@`; the greedy domain run
backtracks to find the last dot admitting a valid TLD. -/
def matchEmailAt (s : List Char) (i : Nat) : Option Nat :=
  if ¬ boundaryAt s i then none
  else
    let L := runLength s i emailLocalChar
    if L = 0 then none
    else if ¬ (s.get? (i + L) = some '@') then none
    else
      let j := i + L + 1
      let D := runLength s j emailDomainChar
      if D = 0 then none
      else
        ((List.range D).map (fun k => D - k)).findSome? fun k =>
          if s.get? (j + k) = some '.' then matchEmailTldAt s (j + k + 1) else none

/-- `[\s-]` (separator class of the card pattern; ASCII whitespace). -/
def sepCharAt (s : List Char) (i : Nat) : Bool :=
  match s.get? i with
  | some c => c.isWhitespace || c = '-'
  | none => false

/-- The remaining `[\s-]?\d{4}` groups of the card pattern, ending with
`\b`; the optional separator is greedy, with backtracking. -/
def matchCardGroups (s : List Char) : Nat → Nat → Option Nat
  | p, 0 => if boundaryAt s p then some p else none
  | p, n + 1 =>
      (if sepCharAt s p && digitRunAt s (p + 1) 4 then
         matchCardGroups s (p + 5) n
       else none) <|>
      (if digitRunAt s p 4 then matchCardGroups s (p + 4) n else none)

/-- `\b\d{4}[\s-]?\d{4}[\s-]?\d{4}[\s-]?\d{4}\b` at position i. -/
def matchCardAt (s : List Char) (i : Nat) : Option Nat :=
  if boundaryAt s i && digitRunAt s i 4 then matchCardGroups s (i + 4) 3 else none

/-- First match whose start is at or after `start`. -/
def scanFrom (matchAt : List Char → Nat → Option Nat) (s : List Char)
    (start : Nat) : Option Nat :=
  (List.range (s.length + 1 - start)).findSome? fun k => matchAt s (start + k)

/-- `RegExp.prototype.test` of a `g`-flagged pattern: search from
lastIndex; on success return true with lastIndex set to the match end,
on failure (or lastIndex beyond the string) return false with lastIndex
reset to 0. -/
def regexTestG (matchAt : List Char → Nat → Option Nat) (s : List Char)
    (lastIndex : Nat) : Bool × Nat :=
  if s.length < lastIndex then (false, 0)
  else
    match scanFrom matchAt s lastIndex with
    | some e => (true, e)
    | none => (false, 0)

/-- The lastIndex state of the four module-level PII_PATTERNS (all 0
when the module loads). -/
structure PIIState where
  phoneLast : Nat := 0
  accountLast : Nat := 0
  emailLast : Nat := 0
  cardLast : Nat := 0
deriving DecidableEq, Repr

/-- detectPII(message): tests the four patterns in order, returning
true on the first hit; each test updates that pattern's lastIndex
(patterns after an early return keep their previous state). -/
def detectPII (st : PIIState) (msg : List Char) : Bool × PIIState :=
  let p1 := regexTestG matchPhoneAt msg st.phoneLast
  if p1.1 then (true, { st with phoneLast := p1.2 })
  else
    let st1 : PIIState := { st with phoneLast := p1.2 }
    let p2 := regexTestG matchAccountAt msg st1.accountLast
    if p2.1 then (true, { st1 with accountLast := p2.2 })
    else
      let st2 : PIIState := { st1 with accountLast := p2.2 }
      let p3 := regexTestG matchEmailAt msg st2.emailLast
      if p3.1 then (true, { st2 with emailLast := p3.2 })
      else
        let st3 : PIIState := { st2 with emailLast := p3.2 }
        let p4 := regexTestG matchCardAt msg st3.cardLast
        if p4.1 then (true, { st3 with cardLast := p4.2 })
        else (false, { st3 with cardLast := p4.2 })

/-- C8.  detectPII is not stateless: because the PII_PATTERNS carry the
`g` flag and `test` advances each pattern's persistent lastIndex, two
consecutive calls with the same message can disagree.  Evaluated at the
failing input "My phone is 9876543210": the first call returns true
(and leaves the phone pattern's lastIndex at 22); the immediately
following call with the identical message returns false. -/
theorem c8_detectPII_stateful :
    (detectPII {} ("My phone is 9876543210".toList)).1 = true ∧
      (detectPII (detectPII {} ("My phone is 9876543210".toList)).2
        ("My phone is 9876543210".toList)).1 = false := by
  constructor
  · rfl
  · rfl

/-- Witness for the amended C5 at a concrete input: all four random
draws picking index 0 yield the code NL-AAAA. -/
theorem c5_witness :
    codeFormatOk (generateBookingCode (fun _ => 0)) = true ∧
      (∀ c ∈ generateBookingCode (fun _ => 0), c ∉ ambiguousChars) ∧
      (∀ c ∈ (generateBookingCode (fun _ => 0)).drop 3, c ∈ bookingCodeChars) :=
  c5_code_format (fun _ => 0)
